import Mathlib

/-!
Verification development for the jenbina goal/plan lifecycle engine.

The `BasicNeeds` definitions are translated from the compiled module
`core/basic_needs.py` found in the repository.  The goal-system and
planning-system definitions are modelled from the design documents
(`docs/plans/2026-02-07-goal-system-design.md`) and the specification,
since the implementation files are not part of the source snapshot.
Python floats are modelled as rationals; the random draw inside
`update_needs` is passed in explicitly as the drawn value.
-/

namespace Jenbina

/-- From `core/basic_needs.py`: a dataclass with a single field
`hunger : float = 100.0`. -/
structure BasicNeeds where
  hunger : ℚ
deriving Repr, DecidableEq

/-- From `core/basic_needs.py`: `update_needs` sets
`self.hunger = max(0, self.hunger - random.uniform(5, 15))`.
The random draw is the explicit argument `d`. -/
def BasicNeeds.update_needs (b : BasicNeeds) (d : ℚ) : BasicNeeds :=
  { hunger := max 0 (b.hunger - d) }

/-- From `core/basic_needs.py`: `satisfy_hunger` sets
`self.hunger = min(100, self.hunger + amount)`. -/
def BasicNeeds.satisfy_hunger (b : BasicNeeds) (amount : ℚ) : BasicNeeds :=
  { hunger := min 100 (b.hunger + amount) }

/-! ## Goal system data model

Modelled from the spec: the implementation of `GoalSystem` is not in the
source snapshot; the data model follows §3 of the specification and the
`Goal` table of the goal-system design document. -/

/-- Temporal scope of a goal. -/
inductive Horizon
  | short
  | mid
  | long
deriving Repr, DecidableEq

/-- Lifecycle status of a goal. -/
inductive GoalStatus
  | active
  | completed
  | abandoned
deriving Repr, DecidableEq

/-- Modelled from the spec: the `Goal` record of §3 / the design doc table. -/
structure Goal where
  description : String
  horizon : Horizon
  source_needs : List String
  source_lessons : List String
  recommended_actions : List String
  progress : ℚ
  confidence : ℚ
  status : GoalStatus
  created_at : ℚ
  last_progressed : ℚ
  times_advanced : ℕ
  times_regressed : ℕ
deriving Repr, DecidableEq

/-- Clamp a rational to the unit interval, as the spec requires after
every numeric update. -/
def clamp01 (x : ℚ) : ℚ := max 0 (min 1 x)

/-- Modelled from the spec: decay rate per hour by horizon
(short 0.03, mid 0.008, long 0.002). -/
def decayRate : Horizon → ℚ
  | .short => 3 / 100
  | .mid => 8 / 1000
  | .long => 2 / 1000

/-- Modelled from the spec: abandonment threshold by horizon
(short 0.10, mid 0.05, long 0.05). -/
def abandonThreshold : Horizon → ℚ
  | .short => 1 / 10
  | .mid => 1 / 20
  | .long => 1 / 20

/-- Modelled from the spec: one goal's step of `decay_all_goals(hours)` —
for an active goal, confidence loses `rate(horizon) × hours`, is clamped
to `[0,1]`, and the goal is abandoned if the result falls below the
horizon's threshold.  Non-active goals are untouched. -/
def decayGoal (hours : ℚ) (g : Goal) : Goal :=
  if g.status = .active then
    let c := clamp01 (g.confidence - decayRate g.horizon * hours)
    { g with
      confidence := c,
      status := if c < abandonThreshold g.horizon then .abandoned else .active }
  else g

/-- Modelled from the spec: `decay_all_goals(hours)` applies the decay
step to every goal in the collection. -/
def decay_all_goals (hours : ℚ) (gs : List Goal) : List Goal :=
  gs.map (decayGoal hours)

/-! Basic facts about the clamp. -/

theorem clamp01_nonneg (x : ℚ) : 0 ≤ clamp01 x := le_max_left 0 _

theorem clamp01_le_one (x : ℚ) : clamp01 x ≤ 1 :=
  max_le (by norm_num) (min_le_left 1 x)

theorem clamp01_of_mem (x : ℚ) (h0 : 0 ≤ x) (h1 : x ≤ 1) : clamp01 x = x := by
  unfold clamp01
  rw [min_eq_right h1, max_eq_right h0]

/-! ## Goal system operations

Modelled from the spec, §4.1: generation with duplicate rejection and
bucket-capped eviction, experience-driven progress updates, and
oracle-gated milestone checks.  Oracle responses are explicit inputs:
`OracleResult.ok` carries a validated response, while `unavailable` and
`malformed` are the two failure kinds of §7. -/

/-- Modelled from the spec: outcome of one call to the external
reasoning oracle (§7 error kinds). -/
inductive OracleResult (α : Type)
  | ok (val : α)
  | unavailable
  | malformed
deriving Repr, DecidableEq

/-- Modelled from the spec: result reported to the caller for an
oracle-backed operation — either the operation applied, was skipped by
policy, or the oracle failed (a non-fatal event, §7). -/
inductive CycleEvent
  | applied
  | skipped
  | oracleFailure
deriving Repr, DecidableEq

/-- Configuration constant of §4.1. -/
def MAX_GOALS : ℕ := 10

/-- Configuration constant of §4.1. -/
def MILESTONE_CHECK_THRESHOLD : ℚ := 85 / 100

/-- Modelled from the spec: soft per-horizon sub-targets of MAX_GOALS
(≈3 short / 4 mid / 3 long). -/
def subTarget : Horizon → ℕ
  | .short => 3
  | .mid => 4
  | .long => 3

/-- Modelled from the spec: a goal candidate proposed by the oracle
(§6 `propose_goals` item, confidence oracle-supplied or defaulted
upstream to 1.0). -/
structure GoalCandidate where
  description : String
  horizon : Horizon
  source_needs : List String
  recommended_actions : List String
  confidence : ℚ
deriving Repr, DecidableEq

/-- A goal is active and sits in the given horizon bucket. -/
def isActiveIn (h : Horizon) (g : Goal) : Bool :=
  g.status = GoalStatus.active && g.horizon = h

/-- Number of active goals in one horizon bucket. -/
def activeCount (h : Horizon) (gs : List Goal) : ℕ :=
  gs.countP (isActiveIn h)

/-- Number of active goals across all horizons. -/
def totalActive (gs : List Goal) : ℕ :=
  gs.countP (fun g => g.status = GoalStatus.active)

/-- Modelled from the spec: the duplicate-intent heuristic of §4.1 — a
candidate is rejected when its description case-insensitively matches an
active goal, or its source-needs set equals that of an active goal of
the same horizon whose confidence exceeds 0.5. -/
def dupIntent (c : GoalCandidate) (g : Goal) : Bool :=
  g.status = GoalStatus.active &&
    (c.description.toLower = g.description.toLower ||
      (g.horizon = c.horizon && (1 : ℚ) / 2 < g.confidence &&
        c.source_needs.all (fun n => g.source_needs.contains n) &&
        g.source_needs.all (fun n => c.source_needs.contains n)))

/-- Confidences of the active goals of one horizon bucket. -/
def bucketConfs (h : Horizon) (gs : List Goal) : List ℚ :=
  gs.filterMap (fun g => if isActiveIn h g then some g.confidence else none)

/-- Minimum of a list of rationals, `none` on the empty list. -/
def listMin : List ℚ → Option ℚ
  | [] => none
  | c :: cs =>
    match listMin cs with
    | none => some c
    | some m => some (min c m)

/-- Modelled from the spec: abandon the first active goal of horizon `h`
holding confidence `c` (used to evict the lowest-confidence goal of a
full bucket). -/
def abandonFirstWith (h : Horizon) (c : ℚ) : List Goal → List Goal
  | [] => []
  | g :: gs =>
    if isActiveIn h g && g.confidence = c then
      { g with status := GoalStatus.abandoned } :: gs
    else
      g :: abandonFirstWith h c gs

/-- Modelled from the spec: a freshly accepted goal — progress 0,
oracle-supplied confidence clamped to `[0,1]` (§7), status active. -/
def newGoal (now : ℚ) (c : GoalCandidate) : Goal :=
  { description := c.description
    horizon := c.horizon
    source_needs := c.source_needs
    source_lessons := []
    recommended_actions := c.recommended_actions
    progress := 0
    confidence := clamp01 c.confidence
    status := GoalStatus.active
    created_at := now
    last_progressed := now
    times_advanced := 0
    times_regressed := 0 }

/-- Modelled from the spec: acceptance of one candidate in
`generate_goals` — duplicates are rejected; if the horizon bucket is
below its sub-target the candidate is appended; otherwise the
lowest-confidence active goal of the bucket is evicted to abandoned only
when the candidate's confidence is strictly higher, else the candidate
is discarded. -/
def acceptCandidate (now : ℚ) (gs : List Goal) (c : GoalCandidate) : List Goal :=
  if gs.any (dupIntent c) then gs
  else if activeCount c.horizon gs < subTarget c.horizon then gs ++ [newGoal now c]
  else
    match listMin (bucketConfs c.horizon gs) with
    | none => gs
    | some m =>
      if m < clamp01 c.confidence then
        abandonFirstWith c.horizon m gs ++ [newGoal now c]
      else gs

/-- Modelled from the spec: `generate_goals` — the oracle proposes at
most three candidates, which are accepted in order; an oracle failure is
a no-op reported as a non-fatal event (§7). -/
def generate_goals (now : ℚ) (resp : OracleResult (List GoalCandidate))
    (gs : List Goal) : List Goal × CycleEvent :=
  match resp with
  | .ok cands => ((cands.take 3).foldl (acceptCandidate now) gs, .applied)
  | .unavailable => (gs, .oracleFailure)
  | .malformed => (gs, .oracleFailure)

/-- Modelled from the spec: the per-cycle `Experience` record of §6. -/
structure Experience where
  action_taken : String
  need_deltas : List (String × ℚ)
  timestamp : ℚ
deriving Repr, DecidableEq

/-- Sum of an experience's need deltas restricted to the given needs. -/
def deltaSum (e : Experience) (needs : List String) : ℚ :=
  (e.need_deltas.filter (fun p => needs.contains p.1)).foldl (fun a p => a + p.2) 0

/-- Modelled from the spec: one goal's step of `update_progress` — a
strictly positive delta sum on the source needs advances progress by
`f sum` and reinforces confidence by `rc`, a strictly negative sum
regresses progress by `f |sum|`; both results are clamped to `[0,1]`.
The bounded scaling function `f` and the reinforcement `rc` are the
implementation-choice parameters of §9. -/
def updateGoal (f : ℚ → ℚ) (rc : ℚ) (e : Experience) (g : Goal) : Goal :=
  if g.status = GoalStatus.active then
    if 0 < deltaSum e g.source_needs then
      { g with
        progress := clamp01 (g.progress + f (deltaSum e g.source_needs))
        confidence := clamp01 (g.confidence + rc)
        times_advanced := g.times_advanced + 1
        last_progressed := e.timestamp }
    else if deltaSum e g.source_needs < 0 then
      { g with
        progress := clamp01 (g.progress - f (-deltaSum e g.source_needs))
        times_regressed := g.times_regressed + 1 }
    else g
  else g

/-- Modelled from the spec: `update_progress(experience)` over the whole
collection. -/
def update_progress (f : ℚ → ℚ) (rc : ℚ) (e : Experience) (gs : List Goal) : List Goal :=
  gs.map (updateGoal f rc e)

/-- Modelled from the spec: one goal's step of `check_milestones` — only
active goals with progress at or above the milestone threshold consult
the oracle; confirmation completes the goal, rejection reduces progress
by the §9 policy decrement `red` (clamped) leaving confidence unchanged,
and an oracle failure leaves the goal untouched (§7). -/
def milestoneGoal (confirm : Goal → OracleResult Bool) (red : ℚ) (g : Goal) : Goal :=
  if g.status = GoalStatus.active && MILESTONE_CHECK_THRESHOLD ≤ g.progress then
    match confirm g with
    | .ok true => { g with status := GoalStatus.completed }
    | .ok false => { g with progress := clamp01 (g.progress - red) }
    | .unavailable => g
    | .malformed => g
  else g

/-- Modelled from the spec: `check_milestones()` over the whole
collection. -/
def check_milestones (confirm : Goal → OracleResult Bool) (red : ℚ)
    (gs : List Goal) : List Goal :=
  gs.map (milestoneGoal confirm red)

/-! ## Planning system

Modelled from the spec, §4.2, and the planning-system design document:
plans decompose a goal into ordered steps, one step active at a time,
with stuck detection and bounded replanning. -/

/-- Lifecycle status of a plan step. -/
inductive StepStatus
  | pending
  | active
  | completed
  | failed
deriving Repr, DecidableEq

/-- Modelled from the spec: the `PlanStep` record. -/
structure PlanStep where
  description : String
  action_hint : String
  expected_outcome : String
  estimated_cycles : ℕ
  actual_cycles : ℕ
  status : StepStatus
  failure_reason : Option String
deriving Repr, DecidableEq

/-- Lifecycle status of a plan. -/
inductive PlanStatus
  | active
  | completed
  | failed
  | replanned
deriving Repr, DecidableEq

/-- Modelled from the spec: the `Plan` record; the served goal is
referenced by stable index into the goal collection. -/
structure Plan where
  goal_description : String
  goal_id : ℕ
  steps : List PlanStep
  current_step_index : ℕ
  status : PlanStatus
  times_replanned : ℕ
  created_at : ℚ
deriving Repr, DecidableEq

/-- Configuration constant of §4.2. -/
def MAX_ACTIVE_PLANS : ℕ := 3

/-- Configuration constant of §4.2. -/
def MAX_REPLANS : ℕ := 3

/-- Configuration constant of §4.2 (stuck when actual cycles exceed
twice the estimate). -/
def STUCK_MULTIPLIER : ℚ := 2

/-- Modelled from the spec: a step specification as returned by the
oracle's `decompose_plan`/`replan` operations (§6). -/
structure StepSpec where
  description : String
  action_hint : String
  expected_outcome : String
  estimated_cycles : ℕ
deriving Repr, DecidableEq

/-- Modelled from the spec: schema validation of an oracle step list —
2 to 6 ordered steps, each with a positive cycle estimate; anything else
is a malformed response (§7). -/
def validSpecs (l : List StepSpec) : Bool :=
  2 ≤ l.length && l.length ≤ 6 && l.all (fun s => 0 < s.estimated_cycles)

/-- Build a plan step from an oracle step specification, with the given
initial status and zero actual cycles. -/
def stepOfSpec (st : StepStatus) (s : StepSpec) : PlanStep :=
  { description := s.description
    action_hint := s.action_hint
    expected_outcome := s.expected_outcome
    estimated_cycles := s.estimated_cycles
    actual_cycles := 0
    status := st
    failure_reason := none }

/-- Whether some plan already serves the goal with an active or
replanned status. -/
def hasPlanFor (gid : ℕ) (plans : List Plan) : Bool :=
  plans.any (fun p => p.goal_id = gid &&
    (p.status = PlanStatus.active || p.status = PlanStatus.replanned))

/-- Modelled from the spec: `create_plan` — only for a goal with no
existing active/replanned plan; the oracle decomposition is validated,
the first step is marked active and the rest pending; an oracle failure
or malformed response creates nothing and is reported as a non-fatal
event (§7). -/
def create_plan (now : ℚ) (resp : OracleResult (List StepSpec)) (gid : ℕ)
    (gdesc : String) (plans : List Plan) : List Plan × CycleEvent :=
  match resp with
  | .ok specs =>
    if hasPlanFor gid plans then (plans, .skipped)
    else
      match specs, validSpecs specs with
      | s :: rest, true =>
        (plans ++
          [{ goal_description := gdesc
             goal_id := gid
             steps := stepOfSpec .active s :: rest.map (stepOfSpec .pending)
             current_step_index := 0
             status := PlanStatus.active
             times_replanned := 0
             created_at := now }], .applied)
      | _, _ => (plans, .oracleFailure)
  | .unavailable => (plans, .oracleFailure)
  | .malformed => (plans, .oracleFailure)

/-- Modelled from the spec: `evaluate_step(experience)` on one plan and
its served goal, carrying the override counter.  A match on the active
step's action hint together with improved satisfaction on the goal's
source needs completes the step and advances (completing the plan and
adding +0.3 goal progress when no step remains); otherwise the active
step's actual cycles and the override counter both increment. -/
def evaluate_step (e : Experience) (p : Plan) (g : Goal) (ov : ℕ) :
    Plan × Goal × ℕ :=
  match p.steps.get? p.current_step_index with
  | none => (p, g, ov)
  | some s =>
    if e.action_taken = s.action_hint && 0 < deltaSum e g.source_needs then
      let steps1 := p.steps.set p.current_step_index { s with status := StepStatus.completed }
      match steps1.get? (p.current_step_index + 1) with
      | some nxt =>
        ({ p with
            steps := steps1.set (p.current_step_index + 1)
              { nxt with status := StepStatus.active, actual_cycles := 0 }
            current_step_index := p.current_step_index + 1 }, g, 0)
      | none =>
        ({ p with steps := steps1, status := PlanStatus.completed },
          { g with progress := clamp01 (g.progress + 3 / 10) }, 0)
    else
      ({ p with
          steps := p.steps.set p.current_step_index
            { s with actual_cycles := s.actual_cycles + 1 } }, g, ov + 1)

/-- Modelled from the spec: `check_for_replan()` — true when the active
step's actual cycles strictly exceed its estimate times the stuck
multiplier, or the override counter has reached 3 consecutive
non-matching cycles. -/
def check_for_replan (p : Plan) (ov : ℕ) : Bool :=
  match p.steps.get? p.current_step_index with
  | some s => ((s.estimated_cycles : ℚ) * STUCK_MULTIPLIER < (s.actual_cycles : ℚ)) || 3 ≤ ov
  | none => false

/-- Modelled from the spec: `replan` — when another replan would exceed
MAX_REPLANS, the plan fails and the served goal loses 0.2 confidence
(clamped); otherwise a validated oracle response replaces the remaining
steps, increments the replan counter and marks the plan replanned with
the first new step active, while an oracle failure changes nothing
(§7). -/
def replan (resp : OracleResult (List StepSpec)) (p : Plan) (g : Goal) :
    Plan × Goal × CycleEvent :=
  if MAX_REPLANS ≤ p.times_replanned then
    ({ p with status := PlanStatus.failed },
      { g with confidence := clamp01 (g.confidence - 2 / 10) }, .applied)
  else
    match resp with
    | .ok specs =>
      match specs, validSpecs specs with
      | s :: rest, true =>
        ({ p with
            steps := p.steps.take p.current_step_index ++
              (stepOfSpec .active s :: rest.map (stepOfSpec .pending))
            status := PlanStatus.replanned
            times_replanned := p.times_replanned + 1 }, g, .applied)
      | _, _ => (p, g, .oracleFailure)
    | .unavailable => (p, g, .oracleFailure)
    | .malformed => (p, g, .oracleFailure)

/-! ## Sample states used by the concrete witnesses -/

/-- A concrete short-horizon goal used in the scenario witnesses. -/
def sampleGoal : Goal :=
  { description := "find food"
    horizon := .short
    source_needs := ["hunger"]
    source_lessons := []
    recommended_actions := ["eat"]
    progress := 0
    confidence := 3 / 5
    status := GoalStatus.active
    created_at := 0
    last_progressed := 0
    times_advanced := 0
    times_regressed := 0 }

/-- A concrete plan step with a two-cycle estimate (Scenario C). -/
def sampleStep : PlanStep :=
  { description := "go to the store"
    action_hint := "work"
    expected_outcome := "food bought"
    estimated_cycles := 2
    actual_cycles := 0
    status := StepStatus.active
    failure_reason := none }

/-- A concrete one-step plan holding `sampleStep` as its active step. -/
def samplePlan : Plan :=
  { goal_description := "find food"
    goal_id := 0
    steps := [sampleStep]
    current_step_index := 0
    status := PlanStatus.active
    times_replanned := 0
    created_at := 0 }

/-- A concrete experience whose action matches nothing and carries no
need deltas. -/
def noMatchExp : Experience :=
  { action_taken := "wander", need_deltas := [], timestamp := 1 }

/-- One simulation cycle of `evaluate_step` on a (plan, goal, override
counter) triple. -/
def evalCycle (e : Experience) (st : Plan × Goal × ℕ) : Plan × Goal × ℕ :=
  evaluate_step e st.1 st.2.1 st.2.2

/-! ## Theorems -/

/-- C9: `BasicNeeds.satisfy_hunger(amount)` sets hunger to
`min(100, hunger + amount)`, so hunger never exceeds 100 after any call,
even though the external needs interface of the spec speaks of a `[0,1]`
satisfaction scale. -/
theorem satisfy_hunger_caps_at_100 (b : BasicNeeds) (amount : ℚ) :
    (b.satisfy_hunger amount).hunger = min 100 (b.hunger + amount) ∧
      (b.satisfy_hunger amount).hunger ≤ 100 :=
  ⟨rfl, min_le_left _ _⟩

/-- C10: for hunger `h ≥ 0` and a nonnegative random decrement `d`,
`BasicNeeds.update_needs` sets hunger to `max(0, h - d)`; the result is
never negative and never larger than the starting hunger. -/
theorem update_needs_floor_at_zero (b : BasicNeeds) (d : ℚ)
    (hb : 0 ≤ b.hunger) (hd : 0 ≤ d) :
    (b.update_needs d).hunger = max 0 (b.hunger - d) ∧
      0 ≤ (b.update_needs d).hunger ∧
      (b.update_needs d).hunger ≤ b.hunger :=
  ⟨rfl, le_max_left 0 _, max_le hb (by linarith)⟩

/-- Witness for C10 at hunger 50 and decrement 7. -/
theorem update_needs_floor_at_zero_witness :
    (0 : ℚ) ≤ (BasicNeeds.mk 50).hunger ∧ (0 : ℚ) ≤ 7 ∧
      (((BasicNeeds.mk 50).update_needs 7).hunger = max 0 ((BasicNeeds.mk 50).hunger - 7) ∧
        0 ≤ ((BasicNeeds.mk 50).update_needs 7).hunger ∧
        ((BasicNeeds.mk 50).update_needs 7).hunger ≤ (BasicNeeds.mk 50).hunger) :=
  ⟨by norm_num, by norm_num,
    update_needs_floor_at_zero (BasicNeeds.mk 50) 7 (by norm_num) (by norm_num)⟩

/-- C6: decaying a short-horizon active goal of confidence 0.6 for 10
hours leaves confidence `0.6 - 0.03 × 10 = 0.30`, and since `0.30` is at
or above the short abandonment threshold `0.10` the goal stays
active. -/
theorem decay_short_ten_hours (g : Goal) (hh : g.horizon = .short)
    (hc : g.confidence = 3 / 5) (hs : g.status = GoalStatus.active) :
    decay_all_goals 10 [g] =
      [{ g with confidence := 3 / 10, status := GoalStatus.active }] := by
  have hth : ¬(3 / 10 : ℚ) < abandonThreshold .short := by
    simp [abandonThreshold]; norm_num
  have hcl : clamp01 ((3 : ℚ) / 5 - decayRate .short * 10) = 3 / 10 := by
    rw [show (3 : ℚ) / 5 - decayRate .short * 10 = 3 / 10 by
      simp [decayRate]; norm_num]
    exact clamp01_of_mem _ (by norm_num) (by norm_num)
  simp [decay_all_goals, decayGoal, hs, hh, hc, hcl, hth]

/-- Witness for C6 at the concrete sample goal. -/
theorem decay_short_ten_hours_witness :
    decay_all_goals 10 [sampleGoal] =
      [{ sampleGoal with confidence := 3 / 10, status := GoalStatus.active }] :=
  decay_short_ten_hours sampleGoal rfl rfl rfl

/-- C3: invoking `replan` on a plan whose replan counter would exceed
MAX_REPLANS = 3 leaves the steps untouched, fails the plan, and lowers
the served goal's confidence by exactly 0.2 clamped to `[0,1]`. -/
theorem replan_budget_exhausted (resp : OracleResult (List StepSpec))
    (p : Plan) (g : Goal) (h : MAX_REPLANS ≤ p.times_replanned) :
    (replan resp p g).1.status = PlanStatus.failed ∧
      (replan resp p g).1.steps = p.steps ∧
      (replan resp p g).2.1.confidence = clamp01 (g.confidence - 2 / 10) := by
  simp [replan, if_pos h]

/-- Witness for C3: a plan already replanned three times, goal
confidence 0.6 dropping to 0.4. -/
theorem replan_budget_exhausted_witness :
    MAX_REPLANS ≤ ({ samplePlan with times_replanned := 3 } : Plan).times_replanned ∧
      ((replan .unavailable { samplePlan with times_replanned := 3 } sampleGoal).1.status =
          PlanStatus.failed ∧
        (replan .unavailable { samplePlan with times_replanned := 3 } sampleGoal).1.steps =
          ({ samplePlan with times_replanned := 3 } : Plan).steps ∧
        (replan .unavailable { samplePlan with times_replanned := 3 } sampleGoal).2.1.confidence =
          clamp01 (sampleGoal.confidence - 2 / 10)) :=
  ⟨le_refl 3,
    replan_budget_exhausted .unavailable { samplePlan with times_replanned := 3 }
      sampleGoal (le_refl 3)⟩

/-- The state reached after five consecutive `evaluate_step` cycles in
which the chosen action never matches the active step's hint
(Scenario C). -/
def stuckState : Plan × Goal × ℕ :=
  evalCycle noMatchExp (evalCycle noMatchExp (evalCycle noMatchExp
    (evalCycle noMatchExp (evalCycle noMatchExp (samplePlan, sampleGoal, 0)))))

/-- C4: `check_for_replan` is true exactly when the active step's actual
cycles strictly exceed its estimate times STUCK_MULTIPLIER = 2.0 or the
override counter has reached 3; in particular, after five consecutive
non-matching cycles on a step estimated at 2 cycles it returns true. -/
theorem check_for_replan_iff_stuck (p : Plan) (ov : ℕ) (s : PlanStep)
    (hs : p.steps.get? p.current_step_index = some s) :
    (check_for_replan p ov = true ↔
        ((s.estimated_cycles : ℚ) * STUCK_MULTIPLIER < (s.actual_cycles : ℚ) ∨ 3 ≤ ov)) ∧
      check_for_replan stuckState.1 stuckState.2.2 = true := by
  constructor
  · rw [List.get?_eq_getElem?] at hs
    simp [check_for_replan, hs]
  · have h : stuckState =
        ({ samplePlan with steps := [{ sampleStep with actual_cycles := 5 }] },
          sampleGoal, 5) := by
      simp [stuckState, evalCycle, evaluate_step, samplePlan, sampleStep, sampleGoal,
        noMatchExp, deltaSum]
    rw [h]
    simp [check_for_replan, samplePlan, sampleStep, STUCK_MULTIPLIER]

/-- Witness for C4 at the concrete sample plan whose single step is
active at index 0. -/
theorem check_for_replan_iff_stuck_witness :
    samplePlan.steps.get? samplePlan.current_step_index = some sampleStep ∧
      ((check_for_replan samplePlan 0 = true ↔
          ((sampleStep.estimated_cycles : ℚ) * STUCK_MULTIPLIER <
              (sampleStep.actual_cycles : ℚ) ∨ 3 ≤ 0)) ∧
        check_for_replan stuckState.1 stuckState.2.2 = true) :=
  ⟨rfl, check_for_replan_iff_stuck samplePlan 0 sampleStep rfl⟩

/-! ## Decay composability (C2) -/

theorem decayRate_nonneg (h : Horizon) : 0 ≤ decayRate h := by
  cases h <;> norm_num [decayRate]

theorem abandonThreshold_pos (h : Horizon) : 0 < abandonThreshold h := by
  cases h <;> norm_num [abandonThreshold]

/-- One goal's decay composes: decaying by `h1` then `h2` gives the same
confidence as decaying once by `h1 + h2`, provided the goal does not hit
its abandonment boundary after the first decay. -/
theorem decayGoal_comp (g : Goal) (h1 h2 : ℚ) (hh1 : 0 ≤ h1) (hh2 : 0 ≤ h2)
    (hc : g.confidence ≤ 1)
    (hact : g.status = GoalStatus.active → (decayGoal h1 g).status = GoalStatus.active) :
    (decayGoal h2 (decayGoal h1 g)).confidence = (decayGoal (h1 + h2) g).confidence := by
  by_cases hs : g.status = GoalStatus.active
  · have hg1s : (decayGoal h1 g).status = GoalStatus.active := hact hs
    have hg1c : (decayGoal h1 g).confidence =
        clamp01 (g.confidence - decayRate g.horizon * h1) := by
      simp [decayGoal, hs]
    have hg1h : (decayGoal h1 g).horizon = g.horizon := by simp [decayGoal, hs]
    have hstat : (decayGoal h1 g).status =
        (if clamp01 (g.confidence - decayRate g.horizon * h1) < abandonThreshold g.horizon
          then GoalStatus.abandoned else GoalStatus.active) := by
      simp [decayGoal, hs]
    have hth : ¬ clamp01 (g.confidence - decayRate g.horizon * h1) < abandonThreshold g.horizon := by
      intro hlt
      rw [hg1s, if_pos hlt] at hstat
      exact GoalStatus.noConfusion hstat
    push_neg at hth
    have hr1 : 0 ≤ decayRate g.horizon * h1 := mul_nonneg (decayRate_nonneg _) hh1
    have hle1 : g.confidence - decayRate g.horizon * h1 ≤ 1 := by linarith
    have hcl1 : clamp01 (g.confidence - decayRate g.horizon * h1) =
        max 0 (g.confidence - decayRate g.horizon * h1) := by
      unfold clamp01; rw [min_eq_right hle1]
    have hpos : 0 < g.confidence - decayRate g.horizon * h1 := by
      rcases le_or_lt (g.confidence - decayRate g.horizon * h1) 0 with hle | hlt
      · exfalso
        rw [hcl1, max_eq_left hle] at hth
        exact absurd hth (not_le.mpr (abandonThreshold_pos _))
      · exact hlt
    have hceq : clamp01 (g.confidence - decayRate g.horizon * h1) =
        g.confidence - decayRate g.horizon * h1 := by
      rw [hcl1, max_eq_right hpos.le]
    set g1 := decayGoal h1 g with hg1def
    have hlhs : (decayGoal h2 g1).confidence =
        clamp01 (g1.confidence - decayRate g1.horizon * h2) := by
      simp [decayGoal, hg1s]
    have hrhs : (decayGoal (h1 + h2) g).confidence =
        clamp01 (g.confidence - decayRate g.horizon * (h1 + h2)) := by
      simp [decayGoal, hs]
    rw [hlhs, hg1c, hceq, hg1h, hrhs]
    congr 1
    ring
  · have e1 : decayGoal h1 g = g := by simp [decayGoal, hs]
    have e2 : decayGoal h2 g = g := by simp [decayGoal, hs]
    have e3 : decayGoal (h1 + h2) g = g := by simp [decayGoal, hs]
    rw [e1, e2, e3]

/-- C2: over any goal collection with confidences in range,
`decay_all_goals(h1)` followed by `decay_all_goals(h2)` yields exactly
the confidences of a single `decay_all_goals(h1 + h2)`, for h1, h2 ≥ 0,
as long as no goal crosses its abandonment boundary after the first
call. -/
theorem decay_all_goals_composable (gs : List Goal) (h1 h2 : ℚ)
    (hh1 : 0 ≤ h1) (hh2 : 0 ≤ h2)
    (hconf : ∀ g ∈ gs, g.confidence ≤ 1)
    (hact : ∀ g ∈ gs, g.status = GoalStatus.active →
      (decayGoal h1 g).status = GoalStatus.active) :
    (decay_all_goals h2 (decay_all_goals h1 gs)).map Goal.confidence =
      (decay_all_goals (h1 + h2) gs).map Goal.confidence := by
  simp only [decay_all_goals, List.map_map]
  apply List.map_congr_left
  intro g hg
  exact decayGoal_comp g h1 h2 hh1 hh2 (hconf g hg) (hact g hg)

/-- Witness for C2: the sample goal decayed 5 hours twice versus 10
hours once. -/
theorem decay_all_goals_composable_witness :
    (0 : ℚ) ≤ 5 ∧
      (∀ g ∈ [sampleGoal], g.confidence ≤ 1) ∧
      (∀ g ∈ [sampleGoal], g.status = GoalStatus.active →
        (decayGoal 5 g).status = GoalStatus.active) ∧
      (decay_all_goals 5 (decay_all_goals 5 [sampleGoal])).map Goal.confidence =
        (decay_all_goals (5 + 5) [sampleGoal]).map Goal.confidence := by
  have h1 : (0 : ℚ) ≤ 5 := by norm_num
  have h2 : ∀ g ∈ [sampleGoal], g.confidence ≤ 1 := by
    intro g hg
    simp only [List.mem_singleton] at hg
    rw [hg]
    norm_num [sampleGoal]
  have h3 : ∀ g ∈ [sampleGoal], g.status = GoalStatus.active →
      (decayGoal 5 g).status = GoalStatus.active := by
    intro g hg _
    simp only [List.mem_singleton] at hg
    rw [hg]
    have : clamp01 ((3 : ℚ) / 5 - decayRate .short * 5) = 9 / 20 := by
      rw [show (3 : ℚ) / 5 - decayRate .short * 5 = 9 / 20 by norm_num [decayRate]]
      exact clamp01_of_mem _ (by norm_num) (by norm_num)
    simp [decayGoal, sampleGoal, this, abandonThreshold]
    norm_num
  exact ⟨h1, h2, h3, decay_all_goals_composable [sampleGoal] 5 5 h1 h1 h2 h3⟩

/-! ## Unit-interval invariant (C1) -/

/-- Progress and confidence of a goal both lie in `[0,1]`. -/
def inUnit (g : Goal) : Prop :=
  0 ≤ g.progress ∧ g.progress ≤ 1 ∧ 0 ≤ g.confidence ∧ g.confidence ≤ 1

theorem inUnit_newGoal (now : ℚ) (c : GoalCandidate) : inUnit (newGoal now c) :=
  ⟨le_refl _, by norm_num [newGoal], clamp01_nonneg _, clamp01_le_one _⟩

theorem inUnit_decayGoal (hrs : ℚ) (g : Goal) (hg : inUnit g) :
    inUnit (decayGoal hrs g) := by
  unfold decayGoal
  split_ifs with hs
  · exact ⟨hg.1, hg.2.1, clamp01_nonneg _, clamp01_le_one _⟩
  · exact hg

theorem inUnit_updateGoal (f : ℚ → ℚ) (rc : ℚ) (e : Experience) (g : Goal)
    (hg : inUnit g) : inUnit (updateGoal f rc e g) := by
  unfold updateGoal
  split_ifs with hs hpos hneg
  · exact ⟨clamp01_nonneg _, clamp01_le_one _, clamp01_nonneg _, clamp01_le_one _⟩
  · exact ⟨clamp01_nonneg _, clamp01_le_one _, hg.2.2.1, hg.2.2.2⟩
  · exact hg
  · exact hg

theorem inUnit_milestoneGoal (confirm : Goal → OracleResult Bool) (red : ℚ)
    (g : Goal) (hg : inUnit g) : inUnit (milestoneGoal confirm red g) := by
  unfold milestoneGoal
  by_cases hs : (g.status = GoalStatus.active &&
      decide (MILESTONE_CHECK_THRESHOLD ≤ g.progress)) = true
  · rw [if_pos hs]
    cases hcf : confirm g with
    | ok b =>
      cases b with
      | false => exact ⟨clamp01_nonneg _, clamp01_le_one _, hg.2.2.1, hg.2.2.2⟩
      | true => exact hg
    | unavailable => exact hg
    | malformed => exact hg
  · rw [if_neg hs]
    exact hg

theorem inUnit_abandonFirstWith (h : Horizon) (c : ℚ) (gs : List Goal) :
    (∀ g ∈ gs, inUnit g) → ∀ g' ∈ abandonFirstWith h c gs, inUnit g' := by
  induction gs with
  | nil => intro _ g' h'; simp [abandonFirstWith] at h'
  | cons a as ih =>
    intro hg g' h'
    unfold abandonFirstWith at h'
    by_cases hc : (isActiveIn h a && a.confidence = c) = true
    · rw [if_pos hc] at h'
      rcases List.mem_cons.mp h' with h'' | h''
      · subst h''
        have ha := hg a (List.mem_cons_self a as)
        exact ⟨ha.1, ha.2.1, ha.2.2.1, ha.2.2.2⟩
      · exact hg g' (List.mem_cons_of_mem a h'')
    · rw [if_neg hc] at h'
      rcases List.mem_cons.mp h' with h'' | h''
      · exact hg g' (List.mem_cons.mpr (Or.inl h''))
      · exact ih (fun g hgm => hg g (List.mem_cons_of_mem a hgm)) g' h''

theorem inUnit_acceptCandidate (now : ℚ) (c : GoalCandidate) (gs : List Goal)
    (hg : ∀ g ∈ gs, inUnit g) : ∀ g' ∈ acceptCandidate now gs c, inUnit g' := by
  intro g' h'
  unfold acceptCandidate at h'
  split_ifs at h' with hdup hcnt
  · exact hg g' h'
  · rcases List.mem_append.mp h' with h'' | h''
    · exact hg g' h''
    · rw [List.mem_singleton] at h''; subst h''; exact inUnit_newGoal now c
  · split at h'
    · exact hg g' h'
    · split_ifs at h' with hlt
      · rcases List.mem_append.mp h' with h'' | h''
        · exact inUnit_abandonFirstWith c.horizon _ gs hg g' h''
        · rw [List.mem_singleton] at h''; subst h''; exact inUnit_newGoal now c
      · exact hg g' h'

theorem inUnit_foldl_accept (now : ℚ) (cs : List GoalCandidate) (gs : List Goal)
    (hg : ∀ g ∈ gs, inUnit g) : ∀ g' ∈ cs.foldl (acceptCandidate now) gs, inUnit g' := by
  induction cs generalizing gs with
  | nil => simpa using hg
  | cons c cs ih =>
    intro g' h'
    rw [List.foldl_cons] at h'
    exact ih (acceptCandidate now gs c) (inUnit_acceptCandidate now c gs hg) g' h'

/-- C1: every operation of the goal system — `generate_goals`,
`update_progress`, `check_milestones` and `decay_all_goals` — keeps
every goal's progress and confidence inside `[0,1]`. -/
theorem goal_values_stay_in_unit (gs : List Goal) (hg : ∀ g ∈ gs, inUnit g)
    (now hrs rc red : ℚ) (resp : OracleResult (List GoalCandidate))
    (f : ℚ → ℚ) (confirm : Goal → OracleResult Bool) (e : Experience) :
    (∀ g ∈ (generate_goals now resp gs).1, inUnit g) ∧
      (∀ g ∈ update_progress f rc e gs, inUnit g) ∧
      (∀ g ∈ check_milestones confirm red gs, inUnit g) ∧
      (∀ g ∈ decay_all_goals hrs gs, inUnit g) := by
  refine ⟨?_, ?_, ?_, ?_⟩
  · cases resp with
    | ok cands =>
      intro g' h'
      simp only [generate_goals] at h'
      exact inUnit_foldl_accept now (cands.take 3) gs hg g' h'
    | unavailable => simpa [generate_goals] using hg
    | malformed => simpa [generate_goals] using hg
  · intro g' h'
    rcases List.mem_map.mp h' with ⟨g, hgm, rfl⟩
    exact inUnit_updateGoal f rc e g (hg g hgm)
  · intro g' h'
    rcases List.mem_map.mp h' with ⟨g, hgm, rfl⟩
    exact inUnit_milestoneGoal confirm red g (hg g hgm)
  · intro g' h'
    rcases List.mem_map.mp h' with ⟨g, hgm, rfl⟩
    exact inUnit_decayGoal hrs g (hg g hgm)

/-- Witness for C1 on the concrete singleton collection. -/
theorem goal_values_stay_in_unit_witness :
    (∀ g ∈ [sampleGoal], inUnit g) ∧
      ((∀ g ∈ (generate_goals 0 .unavailable [sampleGoal]).1, inUnit g) ∧
        (∀ g ∈ update_progress (fun x => x) (1 / 10) noMatchExp [sampleGoal], inUnit g) ∧
        (∀ g ∈ check_milestones (fun _ => .unavailable) (3 / 20) [sampleGoal], inUnit g) ∧
        (∀ g ∈ decay_all_goals 1 [sampleGoal], inUnit g)) := by
  have hg : ∀ g ∈ [sampleGoal], inUnit g := by
    intro g hgm
    rw [List.mem_singleton] at hgm
    subst hgm
    exact ⟨by norm_num [sampleGoal], by norm_num [sampleGoal],
      by norm_num [sampleGoal], by norm_num [sampleGoal]⟩
  exact ⟨hg, goal_values_stay_in_unit [sampleGoal] hg 0 1 (1 / 10) (3 / 20)
    .unavailable (fun x => x) (fun _ => .unavailable) noMatchExp⟩
/-! ## Bucket caps for goal generation (C5) -/

theorem isActiveIn_abandoned (h : Horizon) (g : Goal) :
    isActiveIn h { g with status := GoalStatus.abandoned } = false := by
  simp [isActiveIn]

theorem activeCount_abandonFirstWith_le (h' h : Horizon) (c : ℚ) (gs : List Goal) :
    activeCount h' (abandonFirstWith h c gs) ≤ activeCount h' gs := by
  induction gs with
  | nil => simp [abandonFirstWith]
  | cons a as ih =>
    unfold abandonFirstWith
    by_cases hca : (isActiveIn h a && a.confidence = c) = true
    · rw [if_pos hca]
      simp only [activeCount, List.countP_cons, isActiveIn_abandoned]
      simp
    · rw [if_neg hca]
      simp only [activeCount, List.countP_cons]
      exact Nat.add_le_add_right ih _

theorem activeCount_abandonFirstWith_succ (h : Horizon) (c : ℚ) (gs : List Goal)
    (hex : ∃ g ∈ gs, (isActiveIn h g && g.confidence = c) = true) :
    activeCount h (abandonFirstWith h c gs) + 1 = activeCount h gs := by
  induction gs with
  | nil => simp at hex
  | cons a as ih =>
    unfold abandonFirstWith
    by_cases hca : (isActiveIn h a && a.confidence = c) = true
    · rw [if_pos hca]
      have hact : isActiveIn h a = true := by
        simp only [Bool.and_eq_true] at hca
        exact hca.1
      simp only [activeCount, List.countP_cons, isActiveIn_abandoned, hact]
      simp
    · rw [if_neg hca]
      have hex' : ∃ g ∈ as, (isActiveIn h g && g.confidence = c) = true := by
        rcases hex with ⟨g, hgm, hp⟩
        rcases List.mem_cons.mp hgm with hga | hga
        · exact absurd (hga ▸ hp) hca
        · exact ⟨g, hga, hp⟩
      simp only [activeCount, List.countP_cons]
      have hih := ih hex'
      simp only [activeCount] at hih
      omega

theorem listMin_mem (l : List ℚ) (m : ℚ) (hm : listMin l = some m) : m ∈ l := by
  induction l generalizing m with
  | nil => simp [listMin] at hm
  | cons a as ih =>
    unfold listMin at hm
    rcases hr : listMin as with _ | m'
    · rw [hr] at hm
      simp at hm
      subst hm
      exact List.mem_cons_self a as
    · rw [hr] at hm
      simp at hm
      rcases min_choice a m' with hmin | hmin <;> rw [hmin] at hm <;> subst hm
      · exact List.mem_cons_self a as
      · exact List.mem_cons_of_mem a (ih m' hr)

theorem bucketConfs_mem (h : Horizon) (gs : List Goal) (m : ℚ)
    (hm : m ∈ bucketConfs h gs) :
    ∃ g ∈ gs, (isActiveIn h g && g.confidence = m) = true := by
  unfold bucketConfs at hm
  rcases List.mem_filterMap.mp hm with ⟨g, hgm, hf⟩
  by_cases ha : isActiveIn h g = true
  · rw [if_pos ha] at hf
    simp at hf
    exact ⟨g, hgm, by simp [ha, hf]⟩
  · rw [if_neg ha] at hf
    exact absurd hf (by simp)

theorem activeCount_append_new (h' : Horizon) (now : ℚ) (c : GoalCandidate)
    (gs : List Goal) :
    activeCount h' (gs ++ [newGoal now c]) =
      activeCount h' gs + (if c.horizon = h' then 1 else 0) := by
  simp only [activeCount, List.countP_append, List.countP_cons, List.countP_nil]
  have : isActiveIn h' (newGoal now c) = decide (c.horizon = h') := by
    simp [isActiveIn, newGoal]
  rw [this]
  by_cases hh : c.horizon = h' <;> simp [hh]

theorem acceptCandidate_caps (now : ℚ) (c : GoalCandidate) (gs : List Goal)
    (hcap : ∀ h', activeCount h' gs ≤ subTarget h') :
    ∀ h', activeCount h' (acceptCandidate now gs c) ≤ subTarget h' := by
  intro h'
  unfold acceptCandidate
  split_ifs with hdup hcnt
  · exact hcap h'
  · rw [activeCount_append_new]
    by_cases hh : c.horizon = h'
    · subst hh
      simp
      omega
    · simp only [if_neg hh]
      simpa using hcap h'
  · split
    · exact hcap h'
    · next m hmin =>
      split_ifs with hlt
      · rw [activeCount_append_new]
        by_cases hh : c.horizon = h'
        · subst hh
          have hex := bucketConfs_mem c.horizon gs m (listMin_mem _ m hmin)
          have hsucc := activeCount_abandonFirstWith_succ c.horizon m gs hex
          have hc := hcap c.horizon
          simp
          omega
        · have hle := activeCount_abandonFirstWith_le h' c.horizon m gs
          simp only [if_neg hh]
          have := hcap h'
          omega
      · exact hcap h'

theorem foldl_accept_caps (now : ℚ) (cs : List GoalCandidate) (gs : List Goal)
    (hcap : ∀ h', activeCount h' gs ≤ subTarget h') :
    ∀ h', activeCount h' (cs.foldl (acceptCandidate now) gs) ≤ subTarget h' := by
  induction cs generalizing gs with
  | nil => simpa using hcap
  | cons c cs ih =>
    intro h'
    rw [List.foldl_cons]
    exact ih (acceptCandidate now gs c) (acceptCandidate_caps now c gs hcap) h'

theorem totalActive_eq_sum (gs : List Goal) :
    totalActive gs =
      activeCount .short gs + activeCount .mid gs + activeCount .long gs := by
  induction gs with
  | nil => rfl
  | cons a as ih =>
    simp only [totalActive, activeCount, List.countP_cons] at ih ⊢
    cases ha : a.status <;> cases hh : a.horizon <;>
      simp [isActiveIn, ha, hh] <;> omega

/-- C5: if every horizon bucket is within its sub-target, then after
`generate_goals` returns every bucket is still within its sub-target and
the total number of active goals is at most MAX_GOALS = 10. -/
theorem generate_goals_respects_caps (now : ℚ)
    (resp : OracleResult (List GoalCandidate)) (gs : List Goal)
    (hcap : ∀ h, activeCount h gs ≤ subTarget h) :
    (∀ h, activeCount h (generate_goals now resp gs).1 ≤ subTarget h) ∧
      totalActive (generate_goals now resp gs).1 ≤ MAX_GOALS := by
  have hmain : ∀ h, activeCount h (generate_goals now resp gs).1 ≤ subTarget h := by
    cases resp with
    | ok cands =>
      intro h
      simp only [generate_goals]
      exact foldl_accept_caps now (cands.take 3) gs hcap h
    | unavailable => simpa [generate_goals] using hcap
    | malformed => simpa [generate_goals] using hcap
  refine ⟨hmain, ?_⟩
  rw [totalActive_eq_sum]
  have hs := hmain .short
  have hm := hmain .mid
  have hl := hmain .long
  simp only [subTarget] at hs hm hl
  simp only [MAX_GOALS]
  omega


/-- A concrete fresh mid-horizon candidate used by the generation
witness. -/
def sampleCandidate : GoalCandidate :=
  { description := "make a friend"
    horizon := .mid
    source_needs := ["social"]
    recommended_actions := ["talk to someone"]
    confidence := 4 / 5 }

/-- Witness for C5: generating from one proposed candidate over the
singleton collection. -/
theorem generate_goals_respects_caps_witness :
    (∀ h, activeCount h [sampleGoal] ≤ subTarget h) ∧
      ((∀ h, activeCount h
          (generate_goals 0 (.ok [sampleCandidate]) [sampleGoal]).1 ≤ subTarget h) ∧
        totalActive (generate_goals 0 (.ok [sampleCandidate]) [sampleGoal]).1 ≤ MAX_GOALS) := by
  have hcap : ∀ h, activeCount h [sampleGoal] ≤ subTarget h := by
    intro h
    cases h <;>
      simp [activeCount, List.countP_cons, isActiveIn, sampleGoal, subTarget]
  exact ⟨hcap, generate_goals_respects_caps 0 (.ok [sampleCandidate]) [sampleGoal] hcap⟩

/-! ## One-way status transitions (C8) -/

/-- Allowed evolution of one goal's status: unchanged, or the one-way
transitions active → completed and active → abandoned. -/
def statusOk (a b : GoalStatus) : Prop :=
  b = a ∨ (a = GoalStatus.active ∧
    (b = GoalStatus.completed ∨ b = GoalStatus.abandoned))

/-- The original collection is a positional prefix of the evolved one —
no goal is deleted or reordered — and every original goal's status
changed only along an allowed one-way transition. -/
def StatusEvolves : List Goal → List Goal → Prop
  | [], _ => True
  | _ :: _, [] => False
  | g :: gs, g' :: gs' => statusOk g.status g'.status ∧ StatusEvolves gs gs'

theorem statusOk_refl (a : GoalStatus) : statusOk a a := Or.inl rfl

theorem statusOk_trans (a b c : GoalStatus) (h1 : statusOk a b)
    (h2 : statusOk b c) : statusOk a c := by
  rcases h1 with h1 | ⟨ha, hb⟩
  · subst h1; exact h2
  · rcases h2 with h2 | ⟨hb', hc⟩
    · subst h2; exact Or.inr ⟨ha, hb⟩
    · subst hb'
      rcases hb with hb | hb <;> exact GoalStatus.noConfusion hb

theorem StatusEvolves_refl : ∀ gs : List Goal, StatusEvolves gs gs
  | [] => trivial
  | _ :: gs => ⟨statusOk_refl _, StatusEvolves_refl gs⟩

theorem StatusEvolves_trans : ∀ (xs ys zs : List Goal),
    StatusEvolves xs ys → StatusEvolves ys zs → StatusEvolves xs zs
  | [], _, _, _, _ => trivial
  | _ :: _, [], _, h, _ => h.elim
  | _ :: _, _ :: _, [], _, h2 => h2.elim
  | _ :: xs, _ :: ys, _ :: zs, ⟨h1, hr1⟩, ⟨h2, hr2⟩ =>
    ⟨statusOk_trans _ _ _ h1 h2, StatusEvolves_trans xs ys zs hr1 hr2⟩

theorem StatusEvolves_append : ∀ (xs ys ext : List Goal),
    StatusEvolves xs ys → StatusEvolves xs (ys ++ ext)
  | [], _, _, _ => trivial
  | _ :: _, [], _, h => h.elim
  | _ :: xs, _ :: ys, ext, ⟨h1, h2⟩ => ⟨h1, StatusEvolves_append xs ys ext h2⟩

theorem StatusEvolves_map (f : Goal → Goal)
    (hf : ∀ g, statusOk g.status (f g).status) :
    ∀ gs : List Goal, StatusEvolves gs (gs.map f)
  | [] => trivial
  | g :: gs => ⟨hf g, StatusEvolves_map f hf gs⟩

theorem StatusEvolves_length : ∀ xs ys : List Goal,
    StatusEvolves xs ys → xs.length ≤ ys.length
  | [], _, _ => Nat.zero_le _
  | _ :: _, [], h => h.elim
  | _ :: xs, _ :: ys, ⟨_, h2⟩ =>
    Nat.succ_le_succ (StatusEvolves_length xs ys h2)

theorem StatusEvolves_abandonFirstWith (h : Horizon) (c : ℚ) :
    ∀ gs : List Goal, StatusEvolves gs (abandonFirstWith h c gs)
  | [] => trivial
  | g :: gs => by
    unfold abandonFirstWith
    split_ifs with hc
    · have hact : g.status = GoalStatus.active := by
        simp only [isActiveIn, Bool.and_eq_true, decide_eq_true_eq] at hc
        exact hc.1.1
      exact ⟨Or.inr ⟨hact, Or.inr rfl⟩, StatusEvolves_refl gs⟩
    · exact ⟨statusOk_refl _, StatusEvolves_abandonFirstWith h c gs⟩

theorem StatusEvolves_accept (now : ℚ) (c : GoalCandidate) (gs : List Goal) :
    StatusEvolves gs (acceptCandidate now gs c) := by
  unfold acceptCandidate
  split_ifs with hdup hcnt
  · exact StatusEvolves_refl gs
  · exact StatusEvolves_append gs gs _ (StatusEvolves_refl gs)
  · split
    · exact StatusEvolves_refl gs
    · split_ifs with hlt
      · exact StatusEvolves_append _ _ _ (StatusEvolves_abandonFirstWith _ _ gs)
      · exact StatusEvolves_refl gs

theorem StatusEvolves_foldl (now : ℚ) :
    ∀ (cs : List GoalCandidate) (gs : List Goal),
      StatusEvolves gs (cs.foldl (acceptCandidate now) gs)
  | [], gs => StatusEvolves_refl gs
  | c :: cs, gs => by
    rw [List.foldl_cons]
    exact StatusEvolves_trans _ _ _ (StatusEvolves_accept now c gs)
      (StatusEvolves_foldl now cs (acceptCandidate now gs c))

theorem statusOk_decayGoal (hrs : ℚ) (g : Goal) :
    statusOk g.status (decayGoal hrs g).status := by
  unfold decayGoal
  split_ifs with hs
  · dsimp only
    split
    · exact Or.inr ⟨hs, Or.inr rfl⟩
    · exact Or.inl hs.symm
  · exact statusOk_refl _

theorem statusOk_updateGoal (f : ℚ → ℚ) (rc : ℚ) (e : Experience) (g : Goal) :
    statusOk g.status (updateGoal f rc e g).status := by
  unfold updateGoal
  split_ifs <;> exact Or.inl rfl

theorem statusOk_milestoneGoal (confirm : Goal → OracleResult Bool) (red : ℚ)
    (g : Goal) : statusOk g.status (milestoneGoal confirm red g).status := by
  unfold milestoneGoal
  by_cases hs : (g.status = GoalStatus.active &&
      decide (MILESTONE_CHECK_THRESHOLD ≤ g.progress)) = true
  · rw [if_pos hs]
    have hact : g.status = GoalStatus.active := by
      simp only [Bool.and_eq_true, decide_eq_true_eq] at hs
      exact hs.1
    cases confirm g with
    | ok b =>
      cases b with
      | false => exact Or.inl rfl
      | true => exact Or.inr ⟨hact, Or.inl rfl⟩
    | unavailable => exact statusOk_refl _
    | malformed => exact statusOk_refl _
  · rw [if_neg hs]
    exact statusOk_refl _

/-- C8: every goal-system operation only ever moves a goal's status
from active to completed or abandoned, never out of a terminal status,
and never removes a goal from the collection (`generate_goals` may only
append; the other operations preserve the length exactly). -/
theorem goal_lifecycle_one_way (gs : List Goal)
    (now hrs rc red : ℚ) (resp : OracleResult (List GoalCandidate))
    (f : ℚ → ℚ) (confirm : Goal → OracleResult Bool) (e : Experience) :
    (StatusEvolves gs (generate_goals now resp gs).1 ∧
        gs.length ≤ (generate_goals now resp gs).1.length) ∧
      (StatusEvolves gs (update_progress f rc e gs) ∧
        (update_progress f rc e gs).length = gs.length) ∧
      (StatusEvolves gs (check_milestones confirm red gs) ∧
        (check_milestones confirm red gs).length = gs.length) ∧
      (StatusEvolves gs (decay_all_goals hrs gs) ∧
        (decay_all_goals hrs gs).length = gs.length) := by
  have hgen : StatusEvolves gs (generate_goals now resp gs).1 := by
    cases resp with
    | ok cands =>
      simp only [generate_goals]
      exact StatusEvolves_foldl now (cands.take 3) gs
    | unavailable => exact StatusEvolves_refl gs
    | malformed => exact StatusEvolves_refl gs
  refine ⟨⟨hgen, StatusEvolves_length _ _ hgen⟩, ⟨?_, ?_⟩, ⟨?_, ?_⟩, ⟨?_, ?_⟩⟩
  · exact StatusEvolves_map _ (statusOk_updateGoal f rc e) gs
  · exact List.length_map gs _
  · exact StatusEvolves_map _ (statusOk_milestoneGoal confirm red) gs
  · exact List.length_map gs _
  · exact StatusEvolves_map _ (statusOk_decayGoal hrs) gs
  · exact List.length_map gs _
/-! ## Oracle failures are local no-ops (C7) -/

/-- An oracle call ended in one of the two failure kinds of §7. -/
def oracleFailed {α : Type} (r : OracleResult α) : Prop :=
  r = OracleResult.unavailable ∨ r = OracleResult.malformed

theorem milestoneGoal_noop (confirm : Goal → OracleResult Bool) (red : ℚ)
    (g : Goal) (hc : oracleFailed (confirm g)) : milestoneGoal confirm red g = g := by
  unfold milestoneGoal
  split_ifs with hs
  · rcases hc with hc | hc <;> rw [hc]
  · rfl

theorem check_milestones_noop (confirm : Goal → OracleResult Bool) (red : ℚ)
    (gs : List Goal) (hc : ∀ g, oracleFailed (confirm g)) :
    check_milestones confirm red gs = gs := by
  unfold check_milestones
  induction gs with
  | nil => rfl
  | cons a as ih => rw [List.map_cons, ih, milestoneGoal_noop confirm red a (hc a)]

/-- C7: an unavailable oracle or a malformed response during
`generate_goals`, `create_plan`, `replan` or `check_milestones` leaves
every goal and plan unchanged and is reported as the non-fatal
`oracleFailure` event; for `replan` this concerns plans still within
their replan budget, since a budget-exhausted plan never consults the
oracle. -/
theorem oracle_failure_is_noop
    (now red : ℚ) (gs : List Goal) (plans : List Plan) (gid : ℕ) (gdesc : String)
    (p : Plan) (g : Goal)
    (rg : OracleResult (List GoalCandidate)) (rs : OracleResult (List StepSpec))
    (confirm : Goal → OracleResult Bool) (specs : List StepSpec)
    (hrg : oracleFailed rg) (hrs : oracleFailed rs)
    (hconfirm : ∀ g', oracleFailed (confirm g'))
    (hnp : hasPlanFor gid plans = false) (hv : validSpecs specs = false)
    (hb : p.times_replanned < MAX_REPLANS) :
    generate_goals now rg gs = (gs, .oracleFailure) ∧
      create_plan now rs gid gdesc plans = (plans, .oracleFailure) ∧
      create_plan now (.ok specs) gid gdesc plans = (plans, .oracleFailure) ∧
      replan rs p g = (p, g, .oracleFailure) ∧
      replan (.ok specs) p g = (p, g, .oracleFailure) ∧
      check_milestones confirm red gs = gs := by
  refine ⟨?_, ?_, ?_, ?_, ?_, check_milestones_noop confirm red gs hconfirm⟩
  · rcases hrg with h | h <;> rw [h] <;> rfl
  · rcases hrs with h | h <;> rw [h] <;> rfl
  · simp only [create_plan]
    rw [if_neg (by rw [hnp]; exact Bool.false_ne_true)]
    cases specs with
    | nil => rfl
    | cons s rest => rw [hv]
  · unfold replan
    rw [if_neg (Nat.not_le.mpr hb)]
    rcases hrs with h | h <;> rw [h]
  · unfold replan
    rw [if_neg (Nat.not_le.mpr hb)]
    cases specs with
    | nil => rfl
    | cons s rest =>
      dsimp only
      rw [hv]

/-- Witness for C7 at concrete failing oracle responses. -/
theorem oracle_failure_is_noop_witness :
    oracleFailed (OracleResult.unavailable : OracleResult (List GoalCandidate)) ∧
      oracleFailed (OracleResult.malformed : OracleResult (List StepSpec)) ∧
      (∀ g' : Goal, oracleFailed
        ((fun _ => OracleResult.unavailable : Goal → OracleResult Bool) g')) ∧
      hasPlanFor 0 [] = false ∧ validSpecs [] = false ∧
      samplePlan.times_replanned < MAX_REPLANS ∧
      (generate_goals 0 .unavailable [sampleGoal] = ([sampleGoal], .oracleFailure) ∧
        create_plan 0 .malformed 0 "find food" [] = ([], .oracleFailure) ∧
        create_plan 0 (.ok []) 0 "find food" [] = ([], .oracleFailure) ∧
        replan .malformed samplePlan sampleGoal = (samplePlan, sampleGoal, .oracleFailure) ∧
        replan (.ok []) samplePlan sampleGoal = (samplePlan, sampleGoal, .oracleFailure) ∧
        check_milestones (fun _ => OracleResult.unavailable) (3 / 20) [sampleGoal] =
          [sampleGoal]) := by
  refine ⟨Or.inl rfl, Or.inr rfl, fun _ => Or.inl rfl, rfl, rfl, by norm_num [samplePlan, MAX_REPLANS], ?_⟩
  exact oracle_failure_is_noop 0 (3 / 20) [sampleGoal] [] 0 "find food"
    samplePlan sampleGoal .unavailable .malformed (fun _ => OracleResult.unavailable) []
    (Or.inl rfl) (Or.inr rfl) (fun _ => Or.inl rfl) rfl rfl
    (by norm_num [samplePlan, MAX_REPLANS])
end Jenbina
